import Mathlib

/-!
Verification of the ngmix galsim fitting engine (`ngmix/fitting/galsim_results.py`)
and the weighted-moments wrapper (`ngmix/gaussmom.py`).

The Python code is shallowly embedded: floats become rationals, numpy complex
arrays become flat lists of (real, imaginary) pairs, and the external galsim
renderer (an out-of-scope collaborator) is a record of abstract functions.
Exceptions become `Except` values.
-/

namespace Ngmix

/-- A complex array entry: (real part, imaginary part), both rational. -/
abbrev Cq : Type := ℚ × ℚ

/-- The normalized "invalid model parameters" failure (`ngmix.gexceptions.GMixRangeError`). -/
structure GMixRangeError where
  msg : String
deriving DecidableEq, Repr

/-- The five galsim model variants handled by the fit-model classes:
`GalsimFitModel` handles exp/dev/gauss, and the`GalsimSpergelFitModel` /
`GalsimMoffatFitModel` subclasses fix spergel / moffat. -/
inductive GModel
  | exp
  | dev
  | gauss
  | spergel
  | moffat
deriving DecidableEq, Repr

/-- `get_galsim_npars(model, nband)` from galsim_results.py: number of
parameters for a galsim model, `ValueError` for unrecognized names. -/
def get_galsim_npars (model : String) (nband : Nat) : Except String Nat :=
  if model = "exp" ∨ model = "dev" ∨ model = "gauss" then
    Except.ok (5 + nband)
  else if model = "spergel" ∨ model = "moffat" then
    Except.ok (6 + nband)
  else
    Except.error ("bad model " ++ model)

/-- The external galsim renderer (out-of-scope collaborator, spec section 4.3).
`P` is the type of (opaque) galsim profile objects.  Constructors and drawing
may raise `RuntimeError` (modelled as `Except.error msg`); `shear` may raise
`ValueError`.  Only what the repo code observes of galsim is modelled. -/
structure GalsimEnv (P : Type) where
  /-- `self._model_class(half_light_radius=r50, flux=flux)` where `_model_class`
  is `galsim.Exponential` / `galsim.DeVaucouleurs` / `galsim.Gaussian`. -/
  ctorSimple : GModel → ℚ → ℚ → Except String P
  /-- `galsim.Spergel(nu, half_light_radius=r50, flux=flux)`. -/
  ctorSpergel : ℚ → ℚ → ℚ → Except String P
  /-- `galsim.Moffat(beta, half_light_radius=r50, flux=flux)`. -/
  ctorMoffat : ℚ → ℚ → ℚ → Except String P
  /-- `model.shear(g1=g1, g2=g2)`; raises `ValueError` for out-of-range shear. -/
  shearP : P → ℚ → ℚ → Except String P
  /-- `model.shift(shift)`. -/
  shiftP : P → ℚ × ℚ → P
  /-- `gal._drawKImage(buf)` / `gal.drawKImage(image=buf)`: rasterize the
  profile into a Fourier-space buffer of the given size. -/
  drawK : P → Nat → Except String (List Cq)
  /-- drawing fills the supplied buffer in place, so the result has exactly
  the buffer's size -/
  drawK_length : ∀ p n r, drawK p n = Except.ok r → r.length = n

/-- One Fourier-space observation epoch (the `kobs` produced by
`observation.make_kobs`): complex data array `kimage`, weight array, and an
optional PSF Fourier image, all flattened. -/
structure KObs where
  kimage : List Cq
  weight : List ℚ
  psf : Option (List Cq)

/-- Construction invariant of a `kobs` (established by `observation.make_kobs`,
outside src/): the weight and PSF arrays have the data array's shape. -/
def KObsWF (k : KObs) : Prop :=
  k.weight.length = k.kimage.length
  ∧ ∀ pk, k.psf = some pk → pk.length = k.kimage.length

/-- Modelled from the spec: the optional prior object (external collaborator,
`ngmix.priors`, not under src/) "exposing a penalty-evaluation contract:
fill_penalty(params, output_slice) -> next_offset"; it writes its penalty
terms at positions [0, prior_term_count) of the residual vector. `fill pars n`
is the list of `n` penalty terms it writes. -/
structure Prior where
  fill : List ℚ → Nat → List ℚ
  fill_length : ∀ pars n, (fill pars n).length = n

/-- The state of a constructed `GalsimFitModel` (or of one of its
spergel/moffat subclasses, distinguished by `model`). -/
structure GalsimFitModel (P : Type) where
  env : GalsimEnv P
  model : GModel
  mb_kobs : List (List KObs)
  prior : Option Prior

variable {P : Type}

/-- Construction invariant: every epoch observation is well formed. -/
def mbWF (m : GalsimFitModel P) : Prop :=
  ∀ kl ∈ m.mb_kobs, ∀ k ∈ kl, KObsWF k

/-- `self.nband = len(kobs)` from `_set_kobs`. -/
def nband (m : GalsimFitModel P) : Nat :=
  m.mb_kobs.length

/-- Number of shape-independent parameters of a variant
(c1, c2, e1, e2, r50, and nu / beta for spergel / moffat). -/
def GModel.nshape : GModel → Nat
  | .exp | .dev | .gauss => 5
  | .spergel | .moffat => 6

/-- The model-name string of each variant. -/
def GModel.name : GModel → String
  | .exp => "exp"
  | .dev => "dev"
  | .gauss => "gauss"
  | .spergel => "spergel"
  | .moffat => "moffat"

/-- `self.npars` from `_set_npars`: `get_galsim_npars(self.model, self.nband)`. -/
def npars (m : GalsimFitModel P) : Nat :=
  m.model.nshape + nband m

/-- `self.n_prior_pars` from `_set_n_prior_pars`: 0 without a prior, else
`1 + 1 + 1 + 1 + nband` (c1, c2, e1e2, r50, fluxes) for the base class and
`1 + 1 + 1 + 1 + 1 + nband` (extra nu / beta term) for spergel / moffat. -/
def n_prior_pars (m : GalsimFitModel P) : Nat :=
  match m.prior with
  | none => 0
  | some _ =>
    match m.model with
    | .exp | .dev | .gauss => 1 + 1 + 1 + 1 + nband m
    | .spergel | .moffat => 1 + 1 + 1 + 1 + 1 + nband m

/-- `pixsum l`: total Fourier pixel count of a list of epochs. -/
def pixsum (l : List KObs) : Nat :=
  (l.map fun k => k.kimage.length).sum

/-- `self.totpix` from `_set_totpix`: sum of `kobs.kimage.array.size` over
all bands and epochs. -/
def totpix (m : GalsimFitModel P) : Nat :=
  (m.mb_kobs.map pixsum).sum

/-- `self.fdiff_size` from `_set_fdiff_size`: `n_prior_pars + 2 * totpix`
(real and imaginary parts). -/
def fdiff_size (m : GalsimFitModel P) : Nat :=
  n_prior_pars m + 2 * totpix m

/-- `get_band_pars(pars_in, band)`: per-band slice
`[c1, c2, e1, e2, r50, (nu|beta), flux_band]` written into the reusable
`_band_pars` buffer; base class copies `pars_in[0:5]` and `pars_in[5+band]`,
the spergel / moffat overrides copy `pars_in[0:6]` and `pars_in[6+band]`. -/
def get_band_pars (g : GModel) (pars_in : List ℚ) (band : Nat) : List ℚ :=
  match g with
  | .exp | .dev | .gauss => pars_in.take 5 ++ [pars_in.getD (5 + band) 0]
  | .spergel | .moffat => pars_in.take 6 ++ [pars_in.getD (6 + band) 0]

/-- The minimum half-light-radius threshold `0.0001` of the base
`make_round_model` check `r50 < 0.0001`, written as a rational in lowest
terms (`r50_min_eq` below identifies it with `1 / 10000`). -/
def r50_min : ℚ :=
  ⟨1, 10000, by norm_num, by norm_num⟩

/-- `make_round_model(pars)`: the round, unshifted galsim model.  The base
class rejects `r50 < 0.0001` and normalizes constructor `RuntimeError`s into
`GMixRangeError`; the spergel / moffat overrides have no size check and only
normalize constructor failures. -/
def make_round_model (env : GalsimEnv P) (g : GModel) (pars : List ℚ) :
    Except GMixRangeError P :=
  match g with
  | .exp | .dev | .gauss =>
    let r50 := pars.getD 4 0
    let flux := pars.getD 5 0
    if r50 < r50_min then
      Except.error ⟨"low r50: " ++ toString r50⟩
    else
      match env.ctorSimple g r50 flux with
      | Except.ok p => Except.ok p
      | Except.error e => Except.error ⟨e⟩
  | .spergel =>
    let r50 := pars.getD 4 0
    let nu := pars.getD 5 0
    let flux := pars.getD 6 0
    match env.ctorSpergel nu r50 flux with
    | Except.ok p => Except.ok p
    | Except.error e => Except.error ⟨e⟩
  | .moffat =>
    let r50 := pars.getD 4 0
    let beta := pars.getD 5 0
    let flux := pars.getD 6 0
    match env.ctorMoffat beta r50 flux with
    | Except.ok p => Except.ok p
    | Except.error e => Except.error ⟨e⟩

/-- `make_model(pars)`: round model, then shear (normalizing `ValueError`
into `GMixRangeError`), then centroid shift. -/
def make_model (env : GalsimEnv P) (g : GModel) (pars : List ℚ) :
    Except GMixRangeError P := do
  let model ← make_round_model env g pars
  let sh := (pars.getD 0 0, pars.getD 1 0)
  let g1 := pars.getD 2 0
  let g2 := pars.getD 3 0
  let model ←
    match env.shearP model g1 g2 with
    | Except.ok p => Except.ok p
    | Except.error e => Except.error (⟨e⟩ : GMixRangeError)
  Except.ok (env.shiftP model sh)

/-- Complex multiplication on array entries (numpy `kmodel *= psf.kimage`). -/
def cmul (a b : Cq) : Cq :=
  (a.1 * b.1 - a.2 * b.2, a.1 * b.2 + a.2 * b.1)

/-- The epoch body of `_fill_models`: draw the model into the `kmodel` buffer
(`RuntimeError` normalized to `GMixRangeError` by the surrounding try) and
multiply by the PSF Fourier image when present. -/
def fill_models_epochs (env : GalsimEnv P) (g : GModel) (band_pars : List ℚ) :
    List KObs → Except GMixRangeError (List (List Cq))
  | [] => Except.ok []
  | kobs :: rest =>
    match make_model env g band_pars with
    | Except.error e => Except.error e
    | Except.ok gal =>
      match env.drawK gal kobs.kimage.length with
      | Except.error e => Except.error (⟨e⟩ : GMixRangeError)
      | Except.ok km0 =>
        let kmodel :=
          match kobs.psf with
          | some pk => List.zipWith cmul km0 pk
          | none => km0
        match fill_models_epochs env g band_pars rest with
        | Except.error e => Except.error e
        | Except.ok rest2 => Except.ok (kmodel :: rest2)

/-- The band loop of `_fill_models` (`for band, kobs_list in enumerate(...)`). -/
def fill_models_bands (env : GalsimEnv P) (g : GModel) (pars : List ℚ) :
    Nat → List (List KObs) → Except GMixRangeError (List (List (List Cq)))
  | _, [] => Except.ok []
  | band, kobs_list :: rest =>
    let band_pars := get_band_pars g pars band
    match fill_models_epochs env g band_pars kobs_list with
    | Except.error e => Except.error e
    | Except.ok kms =>
      match fill_models_bands env g pars (band + 1) rest with
      | Except.error e => Except.error e
      | Except.ok rest2 => Except.ok (kms :: rest2)

/-- `_fill_models(pars)`: fill each epoch's `kmodel` buffer for the given
parameters; returns the buffers, band by band. -/
def fill_models (m : GalsimFitModel P) (pars : List ℚ) :
    Except GMixRangeError (List (List (List Cq))) :=
  fill_models_bands m.env m.model pars 0 m.mb_kobs

/-- Modelled from the spec: `LOWVAL` from `ngmix.defaults` (not under src/),
"one fixed large-magnitude sentinel value, representing a strongly
disfavored fit" (-9999.0e47). -/
def LOWVAL : ℚ :=
  -(9999 * 10 ^ 47)

/-- numpy slice assignment `xs[start:start+len(vals)] = vals`. -/
def writeSlice (xs : List ℚ) (start : Nat) (vals : List ℚ) : List ℚ :=
  xs.take start ++ vals ++ xs.drop (start + vals.length)

/-- The `ierr` metadata computed in `_init_model_images`: zero where the
weight is not positive, square root of the weight elsewhere. -/
def mk_ierr (weight : List ℚ) : List ℚ :=
  weight.map fun w => if 0 < w then Rat.sqrt w else 0

/-- Modelled from the spec: `FitModel._fill_priors(pars, fdiff)`
(`ngmix/fitting/results.py`, not under src/): when a prior is configured,
"evaluate its penalty terms for the trial parameter vector and write them at
the vector's front (positions [0, prior_term_count)); this also returns the
next free write offset"; without a prior the offset is 0. -/
def fill_priors (m : GalsimFitModel P) (pars fdiff : List ℚ) : Nat × List ℚ :=
  match m.prior with
  | none => (0, fdiff)
  | some p => (n_prior_pars m, writeSlice fdiff 0 (p.fill pars (n_prior_pars m)))

/-- The prior penalty terms occupying the front of the residual vector. -/
def prior_terms (m : GalsimFitModel P) (pars : List ℚ) : List ℚ :=
  match m.prior with
  | none => []
  | some p => p.fill pars (n_prior_pars m)

/-- The `scratch` buffer contents in `calc_fdiff`: model − data, complex. -/
def epoch_scratch (kobs : KObs) (kmodel : List Cq) : List Cq :=
  List.zipWith (fun a b => (a.1 - b.1, a.2 - b.2)) kmodel kobs.kimage

/-- Real part of (model − data) · ierr for one epoch. -/
def epoch_re (kobs : KObs) (kmodel : List Cq) : List ℚ :=
  List.zipWith (fun c e => c.1 * e) (epoch_scratch kobs kmodel) (mk_ierr kobs.weight)

/-- Imaginary part of (model − data) · ierr for one epoch. -/
def epoch_im (kobs : KObs) (kmodel : List Cq) : List ℚ :=
  List.zipWith (fun c e => c.2 * e) (epoch_scratch kobs kmodel) (mk_ierr kobs.weight)

/-- The epoch loop of `calc_fdiff`: write the real then the imaginary
residual parts into `fdiff` at the running offset, advancing by `imsize`
after each. -/
def fill_epochs (fdiff : List ℚ) (start : Nat) :
    List KObs → List (List Cq) → List ℚ × Nat
  | [], _ => (fdiff, start)
  | _ :: _, [] => (fdiff, start)
  | kobs :: krest, km :: mrest =>
    let re := epoch_re kobs km
    let im := epoch_im kobs km
    let imsize := (epoch_scratch kobs km).length
    let fdiff1 := writeSlice fdiff start re
    let fdiff2 := writeSlice fdiff1 (start + imsize) im
    fill_epochs fdiff2 (start + 2 * imsize) krest mrest

/-- The band loop of `calc_fdiff` (`for band in range(self.nband)`). -/
def fill_bands (fdiff : List ℚ) (start : Nat) :
    List (List KObs) → List (List (List Cq)) → List ℚ
  | [], _ => fdiff
  | _ :: _, [] => fdiff
  | kl :: brest, kms :: mrest =>
    let r := fill_epochs fdiff start kl kms
    fill_bands r.1 r.2 brest mrest

/-- The body of `calc_fdiff`'s `try` block: fill the models, fill the prior
terms, then fill the per-epoch residuals; any `GMixRangeError` aborts. -/
def calc_fdiff_core (m : GalsimFitModel P) (pars : List ℚ) :
    Except GMixRangeError (List ℚ) :=
  let fdiff := List.replicate (fdiff_size m) (0 : ℚ)
  match fill_models m pars with
  | Except.error e => Except.error e
  | Except.ok kms =>
    let r := fill_priors m pars fdiff
    Except.ok (fill_bands r.2 r.1 m.mb_kobs kms)

/-- `calc_fdiff(pars)`: the residual vector (model − data)/error with prior
terms in front; on `GMixRangeError` every entry is set to `LOWVAL`
(`fdiff[:] = LOWVAL`) and no exception escapes. -/
def calc_fdiff (m : GalsimFitModel P) (pars : List ℚ) : List ℚ :=
  match calc_fdiff_core m pars with
  | Except.ok fd => fd
  | Except.error _ => List.replicate (fdiff_size m) LOWVAL

/-- Relation between an epoch observation and its filled model buffer: the
buffer has the data array's size. -/
def lenrel (k : KObs) (km : List Cq) : Prop :=
  km.length = k.kimage.length

/-- The residual entries of one band in layout order: per epoch in list
order, real part then imaginary part. -/
def resid_epochs : List KObs → List (List Cq) → List ℚ
  | [], _ => []
  | _ :: _, [] => []
  | kobs :: krest, km :: mrest =>
    epoch_re kobs km ++ epoch_im kobs km ++ resid_epochs krest mrest

/-- The residual entries of all bands in layout order (bands in increasing
index order). -/
def resid_bands : List (List KObs) → List (List (List Cq)) → List ℚ
  | [], _ => []
  | _ :: _, [] => []
  | kl :: brest, kms :: mrest =>
    resid_epochs kl kms ++ resid_bands brest mrest

/-- Failures of `_check_guess`: the `ValueError` for a guess of the wrong
size, or a propagated rendering failure from the trial `make_model` calls. -/
inductive GuessError
  | badSize (expected got : Nat)
  | render (e : GMixRangeError)
deriving DecidableEq, Repr

/-- The band loop of `_check_guess`: build a trial model for every band,
propagating any `GMixRangeError`. -/
def check_guess_bands (env : GalsimEnv P) (g : GModel) (guess : List ℚ) :
    List Nat → Except GMixRangeError Unit
  | [] => Except.ok ()
  | b :: rest => do
    let _ ← make_model env g (get_band_pars g guess b)
    check_guess_bands env g guess rest

/-- `_check_guess(guess)`: raise `ValueError` when the guess size differs
from `npars`, then build a trial model for every band; rendering failures
propagate. -/
def check_guess (m : GalsimFitModel P) (guess : List ℚ) :
    Except GuessError (List ℚ) :=
  if guess.length ≠ npars m then
    Except.error (GuessError.badSize (npars m) guess.length)
  else
    match check_guess_bands m.env m.model guess (List.range (nband m)) with
    | Except.ok _ => Except.ok guess
    | Except.error e => Except.error (GuessError.render e)

/-- Exceptions that can escape `calc_s2n_r`: a `GMixRangeError` from
`make_model`, or a galsim `RuntimeError` from `drawKImage` (which that
routine does not catch). -/
inductive PyError
  | gmixRange (e : GMixRangeError)
  | runtime (msg : String)
deriving DecidableEq, Repr

/-- One epoch's contribution in `calc_s2n_r`: real and imaginary parts of
the PSF-convolved model squared in place, multiplied by the weight, summed. -/
def s2n_epoch_sum (kobs : KObs) (kmodel : List Cq) : ℚ :=
  (List.zipWith (fun c w => c.1 * c.1 * w) kmodel kobs.weight).sum
  + (List.zipWith (fun c w => c.2 * c.2 * w) kmodel kobs.weight).sum

/-- The epoch loop of `calc_s2n_r`: zero the ellipticity entries of the
band's parameters, build the round model, draw, convolve with the PSF, and
accumulate the weighted power. -/
def s2n_epochs (env : GalsimEnv P) (g : GModel) (band_pars : List ℚ) :
    List KObs → ℚ → Except PyError ℚ
  | [], acc => Except.ok acc
  | kobs :: rest, acc =>
    let round_pars := (band_pars.set 2 0).set 3 0
    match make_model env g round_pars with
    | Except.error e => Except.error (PyError.gmixRange e)
    | Except.ok gal =>
      match env.drawK gal kobs.kimage.length with
      | Except.error msg => Except.error (PyError.runtime msg)
      | Except.ok km0 =>
        let kmodel :=
          match kobs.psf with
          | some pk => List.zipWith cmul km0 pk
          | none => km0
        s2n_epochs env g band_pars rest (acc + s2n_epoch_sum kobs kmodel)

/-- The band loop of `calc_s2n_r`. -/
def s2n_bands (env : GalsimEnv P) (g : GModel) (pars : List ℚ) :
    Nat → List (List KObs) → ℚ → Except PyError ℚ
  | _, [], acc => Except.ok acc
  | band, kl :: rest, acc => do
    let acc2 ← s2n_epochs env g (get_band_pars g pars band) kl acc
    s2n_bands env g pars (band + 1) rest acc2

/-- `calc_s2n_r(pars)`: accumulate the weighted round-model power over all
bands and epochs; return its square root if the sum is positive, else 0. -/
def calc_s2n_r (m : GalsimFitModel P) (pars : List ℚ) : Except PyError ℚ :=
  match s2n_bands m.env m.model pars 0 m.mb_kobs 0 with
  | Except.error e => Except.error e
  | Except.ok s => Except.ok (if 0 < s then Rat.sqrt s else 0)

/-- The result record of a weighted-moments measurement, with the fields
read or rescaled by `GaussMom._measure_moments`. -/
structure MomResult where
  flags : Nat
  flux : ℚ
  flux_err : ℚ
  pars : List ℚ
  sums : List ℚ
  sums_cov : List (List ℚ)
  sums_norm : ℚ
  wsum : ℚ
  sums_err : List ℚ
deriving DecidableEq, Repr

/-- The observation as read by `GaussMom._measure_moments`: only
`obs.jacobian.area` is consulted there. -/
structure MomObs where
  jacobian_area : ℚ
deriving DecidableEq, Repr

/-- `GaussMom` state (`ngmix/gaussmom.py`).  `weight_moments` stands for
`self.weight.get_weighted_moments(obs=obs, with_higher_order=...)`: the
underlying direct-sum estimator is an out-of-scope collaborator
(`ngmix.gmix`, not under src/), modelled as an abstract function. -/
structure GaussMom where
  fwhm : ℚ
  with_higher_order : Bool
  weight_moments : MomObs → Bool → MomResult

/-- `GaussMom._measure_moments(obs)`: run the weighted-moments measurement;
on failure (`flags != 0`) return the result untouched, otherwise divide the
flux-like fields by the jacobian pixel area (and `sums_cov` by its square). -/
def measure_moments (gm : GaussMom) (obs : MomObs) : MomResult :=
  let res := gm.weight_moments obs gm.with_higher_order
  if res.flags ≠ 0 then
    res
  else
    let fac := 1 / obs.jacobian_area
    { res with
      flux := res.flux * fac
      flux_err := res.flux_err * fac
      pars := res.pars.set 5 (res.pars.getD 5 0 * fac)
      sums := res.sums.map (· * fac)
      sums_cov := res.sums_cov.map fun row => row.map (· * fac ^ 2)
      sums_norm := res.sums_norm * fac
      wsum := res.wsum * fac
      sums_err := res.sums_err.map (· * fac) }

/-! ### Concrete instances used by the witnesses -/

/-- A trivial renderer over `Unit` profiles whose drawing fills the buffer
with zeros; every call succeeds. -/
def unitEnv : GalsimEnv Unit where
  ctorSimple := fun _ _ _ => Except.ok ()
  ctorSpergel := fun _ _ _ => Except.ok ()
  ctorMoffat := fun _ _ _ => Except.ok ()
  shearP := fun _ _ _ => Except.ok ()
  shiftP := fun p _ => p
  drawK := fun _ n => Except.ok (List.replicate n ((0 : ℚ), (0 : ℚ)))
  drawK_length := by
    intro p n r h
    injection h with h
    rw [← h]
    exact List.length_replicate n _

/-- A trivial renderer over `Unit` profiles whose drawing fills the buffer
with ones; every call succeeds. -/
def onesEnv : GalsimEnv Unit where
  ctorSimple := fun _ _ _ => Except.ok ()
  ctorSpergel := fun _ _ _ => Except.ok ()
  ctorMoffat := fun _ _ _ => Except.ok ()
  shearP := fun _ _ _ => Except.ok ()
  shiftP := fun p _ => p
  drawK := fun _ n => Except.ok (List.replicate n ((1 : ℚ), (0 : ℚ)))
  drawK_length := by
    intro p n r h
    injection h with h
    rw [← h]
    exact List.length_replicate n _

/-- A prior whose penalty terms are all zero. -/
def zeroPrior : Prior where
  fill := fun _ n => List.replicate n 0
  fill_length := by
    intro pars n
    exact List.length_replicate n _

/-- A two-pixel epoch observation with unit weight and no PSF. -/
def kobsA : KObs where
  kimage := [(1, 0), (0, 1)]
  weight := [1, 1]
  psf := none

/-- A single-band, single-epoch exponential fit model with a prior. -/
def mPrior : GalsimFitModel Unit where
  env := unitEnv
  model := GModel.exp
  mb_kobs := [[kobsA]]
  prior := some zeroPrior

/-- A single-band, single-epoch exponential fit model without a prior. -/
def mPlain : GalsimFitModel Unit where
  env := onesEnv
  model := GModel.exp
  mb_kobs := [[kobsA]]
  prior := none

/-- A renderer over `Unit` profiles whose spergel constructor always
reports an internal failure. -/
def spergelFailEnv : GalsimEnv Unit where
  ctorSimple := fun _ _ _ => Except.ok ()
  ctorSpergel := fun _ _ _ => Except.error "spergel failure"
  ctorMoffat := fun _ _ _ => Except.ok ()
  shearP := fun _ _ _ => Except.ok ()
  shiftP := fun p _ => p
  drawK := fun _ n => Except.ok (List.replicate n ((0 : ℚ), (0 : ℚ)))
  drawK_length := by
    intro p n r h
    injection h with h
    rw [← h]
    exact List.length_replicate n _

/-- A one-band spergel model over the failing renderer. -/
def mFail : GalsimFitModel Unit where
  env := spergelFailEnv
  model := GModel.spergel
  mb_kobs := [[kobsA]]
  prior := none

/-- A concrete failed moments result (`flags = 1`). -/
def resFail : MomResult where
  flags := 1
  flux := 7
  flux_err := 3
  pars := [1, 2, 3, 4, 5, 6]
  sums := [1, 2]
  sums_cov := [[1, 0], [0, 1]]
  sums_norm := 2
  wsum := 9
  sums_err := [1, 1]

/-- A `GaussMom` whose underlying measurement always fails. -/
def gmFail : GaussMom where
  fwhm := 1
  with_higher_order := false
  weight_moments := fun _ _ => resFail

/-! ## Theorems -/

/-- The size threshold really is 0.0001. -/
theorem r50_min_eq : r50_min = 1 / 10000 := by
  have h : r50_min = Rat.mk' 1 10000 (by norm_num) (by norm_num) := rfl
  rw [h, Rat.mk'_eq_divInt]
  norm_num [Rat.divInt_eq_div]

/-- `npars` agrees with the registry lookup `get_galsim_npars`. -/
theorem npars_eq_registry (m : GalsimFitModel P) :
    get_galsim_npars m.model.name (nband m) = Except.ok (npars m) := by
  cases h : m.model <;> simp [npars, GModel.name, GModel.nshape, h] <;> rfl

/-- `kobsA` is well formed. -/
theorem kobsA_wf : KObsWF kobsA := by
  constructor
  · rfl
  · intro pk h
    exact Option.noConfusion h

/-- `mPrior` satisfies the construction invariant. -/
theorem mPrior_wf : mbWF mPrior := by
  intro kl hkl k hk
  simp only [mPrior, List.mem_singleton] at hkl
  subst hkl
  simp only [List.mem_singleton] at hk
  subst hk
  exact kobsA_wf

/-- `mPlain` satisfies the construction invariant. -/
theorem mPlain_wf : mbWF mPlain := by
  intro kl hkl k hk
  simp only [mPlain, List.mem_singleton] at hkl
  subst hkl
  simp only [List.mem_singleton] at hk
  subst hk
  exact kobsA_wf


/-- C3: for every band count B, `get_galsim_npars` returns 5 + B for
exp/dev/gauss, 6 + B for spergel/moffat, and an unsupported-model error for
every other model name. -/
theorem get_galsim_npars_spec (model : String) (B : Nat) :
    ((model = "exp" ∨ model = "dev" ∨ model = "gauss") →
      get_galsim_npars model B = Except.ok (5 + B))
    ∧ ((model = "spergel" ∨ model = "moffat") →
      get_galsim_npars model B = Except.ok (6 + B))
    ∧ (model ≠ "exp" → model ≠ "dev" → model ≠ "gauss" → model ≠ "spergel" →
        model ≠ "moffat" →
      get_galsim_npars model B = Except.error ("bad model " ++ model)) := by
  refine ⟨?_, ?_, ?_⟩
  · intro h
    rcases h with h | h | h <;> subst h <;> rfl
  · intro h
    rcases h with h | h <;> subst h <;> rfl
  · intro h1 h2 h3 h4 h5
    unfold get_galsim_npars
    rw [if_neg, if_neg]
    · rintro (h | h) <;> [exact h4 h; exact h5 h]
    · rintro (h | h | h) <;> [exact h1 h; exact h2 h; exact h3 h]

/-- Witness for C3: evaluation at concrete model names and band counts. -/
theorem get_galsim_npars_spec_witness :
    get_galsim_npars "exp" 2 = Except.ok 7
    ∧ get_galsim_npars "spergel" 1 = Except.ok 7
    ∧ get_galsim_npars "sersic" 0 = Except.error "bad model sersic" :=
  ⟨(get_galsim_npars_spec "exp" 2).1 (Or.inl rfl),
   (get_galsim_npars_spec "spergel" 1).2.1 (Or.inl rfl),
   (get_galsim_npars_spec "sersic" 0).2.2
     (by decide) (by decide) (by decide) (by decide) (by decide)⟩

/-- Setting an entry at or beyond the taken range leaves the taken range
unchanged. -/
theorem take_set_of_le {α : Type} (l : List α) (i n : Nat) (a : α) (h : n ≤ i) :
    (l.set i a).take n = l.take n := by
  apply List.ext_getElem?
  intro j
  rw [List.getElem?_take, List.getElem?_take]
  split
  · next hj => rw [List.getElem?_set_ne (by omega)]
  · rfl

/-- Reading at an index different from the set index is unchanged. -/
theorem getD_set_ne (l : List ℚ) (i j : Nat) (a d : ℚ) (h : i ≠ j) :
    (l.set i a).getD j d = l.getD j d := by
  rw [List.getD_eq_getElem?_getD, List.getD_eq_getElem?_getD,
    List.getElem?_set_ne h]

/-- C7: the per-band slice for band `b'` is the shared leading parameters
followed by band `b'`'s flux, and it does not depend on band `b`'s flux
entry (`b ≠ b'`). -/
theorem get_band_pars_pure (g : GModel) (pars : List ℚ) (b b' : Nat) (v : ℚ)
    (nb : Nat) (hlen : pars.length = g.nshape + nb) (hblt : b < nb)
    (hblt2 : b' < nb) (hne : b ≠ b') :
    get_band_pars g (pars.set (g.nshape + b) v) b' = get_band_pars g pars b'
    ∧ get_band_pars g pars b'
      = pars.take g.nshape ++ [pars.getD (g.nshape + b') 0] := by
  cases g <;>
    exact ⟨by
      simp only [get_band_pars, GModel.nshape]
      rw [take_set_of_le _ _ _ _ (by omega), getD_set_ne _ _ _ _ _ (by omega)],
      rfl⟩

/-- Witness for C7: a two-band exp model; changing band 0's flux does not
change band 1's slice. -/
theorem get_band_pars_pure_witness :
    get_band_pars GModel.exp (([0, 1, 2, 3, 4, 10, 20] : List ℚ).set 5 99) 1
      = get_band_pars GModel.exp [0, 1, 2, 3, 4, 10, 20] 1
    ∧ get_band_pars GModel.exp ([0, 1, 2, 3, 4, 10, 20] : List ℚ) 1
      = ([0, 1, 2, 3, 4, 10, 20] : List ℚ).take 5
        ++ [([0, 1, 2, 3, 4, 10, 20] : List ℚ).getD 6 0] :=
  get_band_pars_pure GModel.exp [0, 1, 2, 3, 4, 10, 20] 0 1 99 2
    (by decide) (by decide) (by decide) (by decide)

/-- Counterexample to C4 as stated: the spergel override of
`make_round_model` has no minimum-size check, so with a renderer that
accepts the call it succeeds even though the size entry 1/20000 is below
the 0.0001 threshold of the base class. -/
theorem make_round_model_spergel_no_size_check :
    (1 / 20000 : ℚ) < 1 / 10000
    ∧ make_round_model unitEnv GModel.spergel [0, 0, 0, 0, 1 / 20000, 1, 1]
        = Except.ok () := by
  constructor
  · norm_num
  · rfl

/-- C4 (amended): for the exp, dev and gauss variants, building the round
model from a per-band slice whose size entry is below 0.0001 fails with the
normalized invalid-model-parameters error, regardless of the other
parameter values and of the renderer. -/
theorem make_round_model_low_r50 (env : GalsimEnv P) (g : GModel)
    (pars : List ℚ) (hg : g = GModel.exp ∨ g = GModel.dev ∨ g = GModel.gauss)
    (hr : pars.getD 4 0 < 1 / 10000) :
    make_round_model env g pars
      = Except.error ⟨"low r50: " ++ toString (pars.getD 4 0)⟩ := by
  have hr2 : pars.getD 4 0 < r50_min := by rw [r50_min_eq]; exact hr
  rcases hg with h | h | h <;> subst h <;>
    simp only [make_round_model] <;> rw [if_pos hr2]

/-- Witness for C4 (amended): size 0 on an exp model is rejected. -/
theorem make_round_model_low_r50_witness :
    make_round_model unitEnv GModel.exp [0, 0, 0, 0, 0, 5]
      = Except.error
          ⟨"low r50: " ++ toString (([0, 0, 0, 0, 0, 5] : List ℚ).getD 4 0)⟩ :=
  make_round_model_low_r50 unitEnv GModel.exp [0, 0, 0, 0, 0, 5]
    (Or.inl rfl) (by norm_num)

/-- Counterexample to C5 as stated: with a prior configured on a one-band
exp model the code counts `1 + 1 + 1 + 1 + nband = 5` prior terms (the
center contributes two terms, c1 and c2), not `3 + bands = 4`. -/
theorem n_prior_pars_not_three_plus_bands :
    n_prior_pars mPrior = 5 ∧ 3 + nband mPrior = 4
    ∧ n_prior_pars mPrior ≠ 3 + nband mPrior :=
  ⟨rfl, rfl, by decide⟩

/-- C5 (amended): whenever a prior is configured the prior-term count is
center(2: c1 and c2) + ellipticity(1) + size(1) [+ extra(1)] + bands, that
is `4 + bands` for exp/dev/gauss and `5 + bands` for spergel/moffat. -/
theorem n_prior_pars_spec (m : GalsimFitModel P) (p : Prior)
    (hp : m.prior = some p) :
    ((m.model = GModel.exp ∨ m.model = GModel.dev ∨ m.model = GModel.gauss) →
      n_prior_pars m = 4 + nband m)
    ∧ ((m.model = GModel.spergel ∨ m.model = GModel.moffat) →
      n_prior_pars m = 5 + nband m) := by
  constructor
  · intro h
    rcases h with h | h | h <;> simp only [n_prior_pars, hp, h]
  · intro h
    rcases h with h | h <;> simp only [n_prior_pars, hp, h]

/-- Witness for C5 (amended): the one-band exp model with a prior has
4 + 1 = 5 prior terms. -/
theorem n_prior_pars_spec_witness :
    n_prior_pars mPrior = 4 + nband mPrior :=
  (n_prior_pars_spec mPrior zeroPrior rfl).1 (Or.inl rfl)

/-- If every trial build of `_check_guess`'s band loop succeeded, each band's
`make_model` call succeeded. -/
theorem check_guess_bands_ok (env : GalsimEnv P) (g : GModel) (guess : List ℚ)
    (bl : List Nat) (u : Unit)
    (h : check_guess_bands env g guess bl = Except.ok u) :
    ∀ b ∈ bl, ∃ p, make_model env g (get_band_pars g guess b) = Except.ok p := by
  induction bl with
  | nil => intro b hb; exact absurd hb (List.not_mem_nil b)
  | cons b0 rest ih =>
    intro b hb
    rw [check_guess_bands] at h
    cases hm : make_model env g (get_band_pars g guess b0) with
    | error e => rw [hm] at h; exact Except.noConfusion h
    | ok p0 =>
      rw [hm] at h
      rcases List.mem_cons.mp hb with hb | hb
      · subst hb; exact ⟨p0, hm⟩
      · exact ih h b hb

/-- C9: a guess whose length differs from the variant's total parameter
count fails validation immediately; a successful construction implies a
trial model was built for every band; and any rendering failure on the
guess propagates out as an error (never converted to the sentinel). -/
theorem check_guess_spec (m : GalsimFitModel P) (guess : List ℚ) :
    (guess.length ≠ npars m →
      check_guess m guess
        = Except.error (GuessError.badSize (npars m) guess.length))
    ∧ (∀ g2, check_guess m guess = Except.ok g2 →
        g2 = guess ∧ guess.length = npars m
        ∧ ∀ b < nband m,
            ∃ p, make_model m.env m.model (get_band_pars m.model guess b)
              = Except.ok p)
    ∧ (∀ b < nband m, ∀ e,
        make_model m.env m.model (get_band_pars m.model guess b)
          = Except.error e →
        ∃ e2, check_guess m guess = Except.error e2) := by
  refine ⟨?_, ?_, ?_⟩
  · intro h
    unfold check_guess
    rw [if_pos h]
  · intro g2 hok
    unfold check_guess at hok
    split at hok
    · exact Except.noConfusion hok
    · next hlen =>
      rw [not_not] at hlen
      cases hb : check_guess_bands m.env m.model guess (List.range (nband m)) with
      | error e => rw [hb] at hok; exact Except.noConfusion hok
      | ok u =>
        rw [hb] at hok
        injection hok with hok
        subst hok
        refine ⟨rfl, hlen, ?_⟩
        intro b hbnd
        exact check_guess_bands_ok m.env m.model guess _ u hb b
          (List.mem_range.mpr hbnd)
  · intro b hbnd e he
    by_cases hlen : guess.length = npars m
    · unfold check_guess
      rw [if_neg (not_not.mpr hlen)]
      cases hb : check_guess_bands m.env m.model guess (List.range (nband m)) with
      | error e2 => exact ⟨GuessError.render e2, rfl⟩
      | ok u =>
        obtain ⟨p, hp⟩ := check_guess_bands_ok m.env m.model guess _ u hb b
          (List.mem_range.mpr hbnd)
        rw [he] at hp
        exact Except.noConfusion hp
    · refine ⟨GuessError.badSize (npars m) guess.length, ?_⟩
      unfold check_guess
      rw [if_pos hlen]

/-- Witness for C9: a 5-entry guess on a 6-parameter model is rejected with
the size-mismatch error. -/
theorem check_guess_spec_witness :
    check_guess mPlain [0, 0, 0, 0, 1]
      = Except.error (GuessError.badSize 6 5) :=
  (check_guess_spec mPlain [0, 0, 0, 0, 1]).1 (by decide)

/-- C10: `GaussMom._measure_moments` applies the 1/area normalization (and
its square to `sums_cov`) exactly when the underlying measurement succeeds;
a failed measurement (`flags != 0`) is returned with no field rescaled. -/
theorem measure_moments_spec (gm : GaussMom) (obs : MomObs) (raw : MomResult)
    (hraw : raw = gm.weight_moments obs gm.with_higher_order) :
    (raw.flags ≠ 0 → measure_moments gm obs = raw)
    ∧ (raw.flags = 0 →
        measure_moments gm obs =
          { raw with
            flux := raw.flux * (1 / obs.jacobian_area)
            flux_err := raw.flux_err * (1 / obs.jacobian_area)
            pars := raw.pars.set 5 (raw.pars.getD 5 0 * (1 / obs.jacobian_area))
            sums := raw.sums.map (· * (1 / obs.jacobian_area))
            sums_cov :=
              raw.sums_cov.map fun row => row.map (· * (1 / obs.jacobian_area) ^ 2)
            sums_norm := raw.sums_norm * (1 / obs.jacobian_area)
            wsum := raw.wsum * (1 / obs.jacobian_area)
            sums_err := raw.sums_err.map (· * (1 / obs.jacobian_area)) }) := by
  constructor
  · intro h
    unfold measure_moments
    rw [← hraw, if_pos h]
  · intro h
    unfold measure_moments
    rw [← hraw, if_neg (by simp [h])]

/-- Witness for C10: a failed measurement comes back untouched. -/
theorem measure_moments_spec_witness :
    measure_moments gmFail ⟨2⟩ = resFail :=
  (measure_moments_spec gmFail ⟨2⟩ resFail rfl).1 (by decide)

/-- C8: whenever `calc_s2n_r` returns a value, that value is the square
root of the accumulated weighted model-power sum if the sum is strictly
positive and 0 otherwise; in particular it is non-negative. -/
theorem calc_s2n_r_spec (m : GalsimFitModel P) (pars : List ℚ) (v : ℚ)
    (h : calc_s2n_r m pars = Except.ok v) :
    0 ≤ v
    ∧ ∀ s, s2n_bands m.env m.model pars 0 m.mb_kobs 0 = Except.ok s →
        v = if 0 < s then Rat.sqrt s else 0 := by
  unfold calc_s2n_r at h
  cases hs : s2n_bands m.env m.model pars 0 m.mb_kobs 0 with
  | error e => rw [hs] at h; exact Except.noConfusion h
  | ok s =>
    rw [hs] at h
    injection h with h
    subst h
    constructor
    · split
      · exact Rat.sqrt_nonneg s
      · exact le_refl 0
    · intro s2 hs2
      injection hs2 with h2
      subst h2
      rfl

/-- Witness for C8: on the one-band model with unit data, weights and model,
the accumulated weighted power is 2 and the returned value is its square
root. -/
theorem calc_s2n_r_spec_witness :
    calc_s2n_r mPlain [0, 0, 0, 0, 1, 1] = Except.ok (Rat.sqrt 2)
    ∧ 0 ≤ Rat.sqrt 2 := by
  have hb : s2n_bands mPlain.env mPlain.model [0, 0, 0, 0, 1, 1] 0 mPlain.mb_kobs 0
      = Except.ok (0 + s2n_epoch_sum kobsA (List.replicate 2 ((1 : ℚ), (0 : ℚ)))) := rfl
  have hsum : (0 : ℚ) + s2n_epoch_sum kobsA (List.replicate 2 ((1 : ℚ), (0 : ℚ))) = 2 := by
    norm_num [s2n_epoch_sum, kobsA, List.replicate]
  rw [hsum] at hb
  have hv : calc_s2n_r mPlain [0, 0, 0, 0, 1, 1] = Except.ok (Rat.sqrt 2) := by
    unfold calc_s2n_r
    rw [hb]
    norm_num
  exact ⟨hv, (calc_s2n_r_spec mPlain [0, 0, 0, 0, 1, 1] (Rat.sqrt 2) hv).1⟩

/-- On any invalid-model-parameters failure the whole residual vector is
the sentinel fill. -/
theorem calc_fdiff_of_error (m : GalsimFitModel P) (pars : List ℚ)
    (e : GMixRangeError) (h : fill_models m pars = Except.error e) :
    calc_fdiff m pars = List.replicate (fdiff_size m) LOWVAL := by
  unfold calc_fdiff calc_fdiff_core
  rw [h]

/-- C1: whenever evaluating the trial parameters raises the normalized
invalid-model-parameters failure in any band or epoch, `calc_fdiff` returns
the full fixed-length vector with every entry equal to `LOWVAL`, and the
failure does not escape (`calc_fdiff` is total). -/
theorem calc_fdiff_sentinel (m : GalsimFitModel P) (pars : List ℚ)
    (h : ∃ e, fill_models m pars = Except.error e) :
    calc_fdiff m pars = List.replicate (fdiff_size m) LOWVAL
    ∧ (calc_fdiff m pars).length = fdiff_size m
    ∧ ∀ x ∈ calc_fdiff m pars, x = LOWVAL := by
  obtain ⟨e, he⟩ := h
  have hc := calc_fdiff_of_error m pars e he
  refine ⟨hc, ?_, ?_⟩
  · rw [hc]
    exact List.length_replicate _ _
  · intro x hx
    rw [hc] at hx
    exact List.eq_of_mem_replicate hx

/-- Witness for C1: a renderer failure on a spergel model fills the whole
4-entry residual vector with the sentinel. -/
theorem calc_fdiff_sentinel_witness :
    calc_fdiff mFail [0, 0, 0, 0, 1, 1, 1]
      = List.replicate (fdiff_size mFail) LOWVAL :=
  (calc_fdiff_sentinel mFail [0, 0, 0, 0, 1, 1, 1]
    ⟨⟨"spergel failure"⟩, rfl⟩).1

/-- `writeSlice` at the boundary between a prefix and a suffix. -/
theorem writeSlice_append (a b v : List ℚ) :
    writeSlice (a ++ b) a.length v = a ++ v ++ b.drop v.length := by
  unfold writeSlice
  rw [List.take_left, List.drop_append]

/-- `mk_ierr` preserves the weight array's size. -/
theorem mk_ierr_length (w : List ℚ) : (mk_ierr w).length = w.length :=
  List.length_map w _

/-- The scratch difference buffer has the data array's size. -/
theorem epoch_scratch_length (k : KObs) (km : List Cq) (h : lenrel k km) :
    (epoch_scratch k km).length = k.kimage.length := by
  unfold epoch_scratch
  rw [List.length_zipWith, h, min_self]

/-- The real residual part of an epoch has the data array's size. -/
theorem epoch_re_length (k : KObs) (km : List Cq) (hwf : KObsWF k)
    (h : lenrel k km) : (epoch_re k km).length = k.kimage.length := by
  unfold epoch_re
  rw [List.length_zipWith, epoch_scratch_length k km h, mk_ierr_length, hwf.1,
    min_self]

/-- The imaginary residual part of an epoch has the data array's size. -/
theorem epoch_im_length (k : KObs) (km : List Cq) (hwf : KObsWF k)
    (h : lenrel k km) : (epoch_im k km).length = k.kimage.length := by
  unfold epoch_im
  rw [List.length_zipWith, epoch_scratch_length k km h, mk_ierr_length, hwf.1,
    min_self]

/-- One band's residual entries count twice the band's pixels. -/
theorem resid_epochs_length (l : List KObs) (ms : List (List Cq))
    (hrel : List.Forall₂ lenrel l ms) (hwf : ∀ k ∈ l, KObsWF k) :
    (resid_epochs l ms).length = 2 * pixsum l := by
  induction hrel with
  | nil => rfl
  | cons h rest ih =>
    next k km l2 ms2 =>
      have hk : KObsWF k := hwf k (by simp)
      have ih2 := ih fun k2 hk2 => hwf k2 (List.mem_cons_of_mem _ hk2)
      simp only [resid_epochs, List.length_append, ih2,
        epoch_re_length k km hk h, epoch_im_length k km hk h, pixsum,
        List.map_cons, List.sum_cons]
      have : pixsum l2 = (l2.map fun k3 => k3.kimage.length).sum := rfl
      omega

/-- All bands' residual entries count twice the total pixels. -/
theorem resid_bands_length (bl : List (List KObs)) (msl : List (List (List Cq)))
    (hrel : List.Forall₂ (fun kl kms => List.Forall₂ lenrel kl kms) bl msl)
    (hwf : ∀ kl ∈ bl, ∀ k ∈ kl, KObsWF k) :
    (resid_bands bl msl).length = 2 * (bl.map pixsum).sum := by
  induction hrel with
  | nil => rfl
  | cons h rest ih =>
    next kl kms bl2 msl2 =>
      have ih2 := ih fun kl2 hkl2 => hwf kl2 (List.mem_cons_of_mem _ hkl2)
      simp only [resid_bands, List.length_append, ih2,
        resid_epochs_length kl kms h (hwf kl (by simp)), List.map_cons,
        List.sum_cons]
      omega

/-- A successful `_fill_models` epoch loop produces one model buffer per
epoch, each of its observation's size. -/
theorem fill_models_epochs_forall2 (env : GalsimEnv P) (g : GModel)
    (bp : List ℚ) (l : List KObs) (r : List (List Cq))
    (hwf : ∀ k ∈ l, KObsWF k)
    (h : fill_models_epochs env g bp l = Except.ok r) :
    List.Forall₂ lenrel l r := by
  induction l generalizing r with
  | nil =>
    rw [fill_models_epochs] at h
    injection h with h
    subst h
    exact List.Forall₂.nil
  | cons k rest ih =>
    rw [fill_models_epochs] at h
    cases hm : make_model env g bp with
    | error e => rw [hm] at h; exact Except.noConfusion h
    | ok gal =>
      simp only [hm] at h
      cases hd : env.drawK gal k.kimage.length with
      | error msg => simp only [hd] at h; exact Except.noConfusion h
      | ok km0 =>
        simp only [hd] at h
        cases hr : fill_models_epochs env g bp rest with
        | error e => simp only [hr] at h; exact Except.noConfusion h
        | ok rest2 =>
          simp only [hr] at h
          have h0 : km0.length = k.kimage.length := env.drawK_length gal _ km0 hd
          injection h with h
          subst h
          refine List.Forall₂.cons ?_
            (ih rest2 (fun k2 hk2 => hwf k2 (List.mem_cons_of_mem _ hk2)) hr)
          cases hpsf : k.psf with
          | none => simpa [lenrel, hpsf] using h0
          | some pk =>
            have hpk := (hwf k (by simp)).2 pk hpsf
            simp [lenrel, hpsf, List.length_zipWith, h0, hpk]

/-- A successful `_fill_models` band loop produces one buffer list per band,
matching epoch by epoch. -/
theorem fill_models_bands_forall2 (env : GalsimEnv P) (g : GModel)
    (pars : List ℚ) (i : Nat) (bl : List (List KObs))
    (r : List (List (List Cq)))
    (hwf : ∀ kl ∈ bl, ∀ k ∈ kl, KObsWF k)
    (h : fill_models_bands env g pars i bl = Except.ok r) :
    List.Forall₂ (fun kl kms => List.Forall₂ lenrel kl kms) bl r := by
  induction bl generalizing i r with
  | nil =>
    rw [fill_models_bands] at h
    injection h with h
    subst h
    exact List.Forall₂.nil
  | cons kl rest ih =>
    rw [fill_models_bands] at h
    cases he : fill_models_epochs env g (get_band_pars g pars i) kl with
    | error e => simp only [he] at h; exact Except.noConfusion h
    | ok kms =>
      simp only [he] at h
      cases hr : fill_models_bands env g pars (i + 1) rest with
      | error e => simp only [hr] at h; exact Except.noConfusion h
      | ok rest2 =>
        simp only [hr] at h
        injection h with h
        subst h
        exact List.Forall₂.cons
          (fill_models_epochs_forall2 env g _ kl kms (hwf kl (by simp)) he)
          (ih (i + 1) rest2 (fun kl2 hkl2 => hwf kl2 (List.mem_cons_of_mem _ hkl2)) hr)

/-- The epoch loop writes exactly the layout-ordered residual entries after
the already-written prefix, consuming `2 * pixsum` slots of the remaining
zero fill. -/
theorem fill_epochs_spec (l : List KObs) (ms : List (List Cq))
    (hrel : List.Forall₂ lenrel l ms) (hwf : ∀ k ∈ l, KObsWF k) :
    ∀ pre rest : List ℚ,
      fill_epochs (pre ++ rest) pre.length l ms
        = (pre ++ resid_epochs l ms ++ rest.drop (2 * pixsum l),
           pre.length + 2 * pixsum l) := by
  induction hrel with
  | nil =>
    intro pre rest
    simp [fill_epochs, resid_epochs, pixsum]
  | cons hkm hrest ih =>
    next k km l2 ms2 =>
      intro pre rest
      have hk : KObsWF k := hwf k (by simp)
      have hwf2 : ∀ k2 ∈ l2, KObsWF k2 :=
        fun k2 hk2 => hwf k2 (List.mem_cons_of_mem _ hk2)
      have hre : (epoch_re k km).length = k.kimage.length :=
        epoch_re_length k km hk hkm
      have him : (epoch_im k km).length = k.kimage.length :=
        epoch_im_length k km hk hkm
      have hsc : (epoch_scratch k km).length = k.kimage.length :=
        epoch_scratch_length k km hkm
      have hpix : pixsum (k :: l2) = k.kimage.length + pixsum l2 := by
        simp [pixsum]
      simp only [fill_epochs]
      have h1 : writeSlice (pre ++ rest) pre.length (epoch_re k km)
          = (pre ++ epoch_re k km) ++ rest.drop k.kimage.length := by
        rw [writeSlice_append, hre]
      rw [h1]
      have hlen1 : pre.length + (epoch_scratch k km).length
          = (pre ++ epoch_re k km).length := by
        rw [List.length_append, hre, hsc]
      rw [hlen1, writeSlice_append, him]
      have hlen3 : pre.length + 2 * (epoch_scratch k km).length
          = ((pre ++ epoch_re k km) ++ epoch_im k km).length := by
        simp only [List.length_append, hre, him, hsc]
        omega
      rw [hlen3, ih hwf2 ((pre ++ epoch_re k km) ++ epoch_im k km)
        ((rest.drop k.kimage.length).drop k.kimage.length)]
      have hdrop : ((rest.drop k.kimage.length).drop k.kimage.length).drop
          (2 * pixsum l2) = rest.drop (2 * pixsum (k :: l2)) := by
        rw [List.drop_drop, List.drop_drop, hpix]
        congr 1
        omega
      simp only [Prod.mk.injEq]
      constructor
      · rw [hdrop]
        simp [resid_epochs, List.append_assoc]
      · rw [List.length_append, List.length_append, hre, him, hpix]
        omega

/-- The band loop writes exactly the layout-ordered residual entries of all
bands after the already-written prefix. -/
theorem fill_bands_spec (bl : List (List KObs)) (msl : List (List (List Cq)))
    (hrel : List.Forall₂ (fun kl kms => List.Forall₂ lenrel kl kms) bl msl)
    (hwf : ∀ kl ∈ bl, ∀ k ∈ kl, KObsWF k) :
    ∀ pre rest : List ℚ,
      fill_bands (pre ++ rest) pre.length bl msl
        = pre ++ resid_bands bl msl
            ++ rest.drop (2 * (bl.map pixsum).sum) := by
  induction hrel with
  | nil =>
    intro pre rest
    simp [fill_bands, resid_bands]
  | cons hb hrest ih =>
    next kl kms bl2 msl2 =>
      intro pre rest
      have hkl : ∀ k ∈ kl, KObsWF k := hwf kl (by simp)
      have hwf2 : ∀ kl2 ∈ bl2, ∀ k ∈ kl2, KObsWF k :=
        fun kl2 hkl2 => hwf kl2 (List.mem_cons_of_mem _ hkl2)
      simp only [fill_bands]
      rw [fill_epochs_spec kl kms hb hkl pre rest]
      have hlen : pre.length + 2 * pixsum kl
          = (pre ++ resid_epochs kl kms).length := by
        rw [List.length_append, resid_epochs_length kl kms hb hkl]
      rw [hlen, ih hwf2 (pre ++ resid_epochs kl kms)
        (rest.drop (2 * pixsum kl))]
      rw [List.drop_drop]
      have hidx2 : 2 * pixsum kl + 2 * (List.map pixsum bl2).sum
          = 2 * (pixsum kl + (List.map pixsum bl2).sum) := by ring
      rw [hidx2]
      simp [resid_bands, List.append_assoc]

/-- The prior writes exactly `n_prior_pars` penalty terms. -/
theorem prior_terms_length (m : GalsimFitModel P) (pars : List ℚ) :
    (prior_terms m pars).length = n_prior_pars m := by
  cases hp : m.prior with
  | none => simp [prior_terms, n_prior_pars, hp]
  | some p => simp [prior_terms, n_prior_pars, hp, p.fill_length]

/-- On a successful fill, the residual vector is the prior terms followed
by the layout-ordered per-band, per-epoch real and imaginary residuals. -/
theorem calc_fdiff_of_ok (m : GalsimFitModel P) (pars : List ℚ)
    (kms : List (List (List Cq))) (hwf : mbWF m)
    (h : fill_models m pars = Except.ok kms) :
    calc_fdiff m pars = prior_terms m pars ++ resid_bands m.mb_kobs kms := by
  have hrel := fill_models_bands_forall2 m.env m.model pars 0 m.mb_kobs kms hwf h
  have hcore : calc_fdiff_core m pars
      = Except.ok (fill_bands
          (fill_priors m pars (List.replicate (fdiff_size m) 0)).2
          (fill_priors m pars (List.replicate (fdiff_size m) 0)).1
          m.mb_kobs kms) := by
    unfold calc_fdiff_core
    rw [h]
  unfold calc_fdiff
  rw [hcore]
  cases hp : m.prior with
  | none =>
    have hnp : n_prior_pars m = 0 := by simp [n_prior_pars, hp]
    have hfp : fill_priors m pars (List.replicate (fdiff_size m) 0)
        = (0, List.replicate (fdiff_size m) 0) := by
      simp [fill_priors, hp]
    rw [hfp]
    have hfb := fill_bands_spec m.mb_kobs kms hrel hwf []
      (List.replicate (fdiff_size m) 0)
    simp only [List.nil_append, List.length_nil] at hfb
    rw [hfb, List.drop_replicate]
    have hsz : fdiff_size m = 2 * (List.map pixsum m.mb_kobs).sum := by
      have h1 : fdiff_size m = n_prior_pars m + 2 * totpix m := rfl
      rw [h1, hnp, Nat.zero_add]
      simp [totpix]
    rw [hsz, Nat.sub_self]
    simp [prior_terms, hp]
  | some p =>
    have hnp : (p.fill pars (n_prior_pars m)).length = n_prior_pars m :=
      p.fill_length pars _
    have hfp : fill_priors m pars (List.replicate (fdiff_size m) 0)
        = (n_prior_pars m,
           writeSlice (List.replicate (fdiff_size m) 0) 0
             (p.fill pars (n_prior_pars m))) := by
      simp [fill_priors, hp]
    rw [hfp]
    have hws : writeSlice (List.replicate (fdiff_size m) 0) 0
        (p.fill pars (n_prior_pars m))
        = p.fill pars (n_prior_pars m)
          ++ List.replicate (2 * totpix m) 0 := by
      have hsub : fdiff_size m - n_prior_pars m = 2 * totpix m := by
        have h1 : fdiff_size m = n_prior_pars m + 2 * totpix m := rfl
        omega
      unfold writeSlice
      rw [List.take_zero, List.nil_append, Nat.zero_add, hnp,
        List.drop_replicate, hsub]
    rw [hws]
    have hgoal := fill_bands_spec m.mb_kobs kms hrel hwf
      (p.fill pars (n_prior_pars m)) (List.replicate (2 * totpix m) 0)
    rw [hnp] at hgoal
    have ht2 : (2 : ℕ) * totpix m = 2 * (List.map pixsum m.mb_kobs).sum := by
      simp [totpix]
    rw [hgoal, List.drop_replicate, ht2, Nat.sub_self]
    simp [prior_terms, hp]

/-- C2: for every constructed fit model (whose observations satisfy the
construction invariant) and every parameter vector, the residual vector has
length exactly `n_prior_pars + 2 * totpix`, and `n_prior_pars` is 0 when no
prior is configured. -/
theorem calc_fdiff_length (m : GalsimFitModel P) (pars : List ℚ)
    (hwf : mbWF m) :
    (calc_fdiff m pars).length = fdiff_size m
    ∧ fdiff_size m = n_prior_pars m + 2 * totpix m
    ∧ (m.prior = none → n_prior_pars m = 0) := by
  refine ⟨?_, rfl, fun hp => by simp [n_prior_pars, hp]⟩
  cases h : fill_models m pars with
  | error e =>
    rw [calc_fdiff_of_error m pars e h]
    exact List.length_replicate _ _
  | ok kms =>
    have hrel := fill_models_bands_forall2 m.env m.model pars 0 m.mb_kobs kms
      hwf h
    rw [calc_fdiff_of_ok m pars kms hwf h, List.length_append,
      prior_terms_length, resid_bands_length m.mb_kobs kms hrel hwf]
    rfl

/-- Witness for C2: the one-band two-pixel model with a prior has residual
length `fdiff_size = 5 + 2 * 2 = 9`. -/
theorem calc_fdiff_length_witness :
    (calc_fdiff mPrior [0, 0, 0, 0, 1, 1]).length = fdiff_size mPrior :=
  (calc_fdiff_length mPrior [0, 0, 0, 0, 1, 1] mPrior_wf).1

/-- C6: `calc_fdiff` is deterministic (equal parameter vectors give
identical residual vectors), and on a successful fill the layout is the
prior terms first, then for each band in increasing index order and each
epoch in list order the real residual part followed by the imaginary part
(`resid_bands` / `resid_epochs`). -/
theorem calc_fdiff_deterministic_layout (m : GalsimFitModel P)
    (pars pars2 : List ℚ) (kms : List (List (List Cq))) (hwf : mbWF m)
    (hpars : pars2 = pars) (h : fill_models m pars = Except.ok kms) :
    calc_fdiff m pars2 = calc_fdiff m pars
    ∧ calc_fdiff m pars = prior_terms m pars ++ resid_bands m.mb_kobs kms := by
  subst hpars
  exact ⟨rfl, calc_fdiff_of_ok m pars2 kms hwf h⟩

/-- Witness for C6: the no-prior one-band model's residual vector is the
concatenation of its single epoch's real and imaginary residual parts. -/
theorem calc_fdiff_deterministic_layout_witness :
    calc_fdiff mPlain [0, 0, 0, 0, 1, 1] = calc_fdiff mPlain [0, 0, 0, 0, 1, 1]
    ∧ calc_fdiff mPlain [0, 0, 0, 0, 1, 1]
      = prior_terms mPlain [0, 0, 0, 0, 1, 1]
        ++ resid_bands mPlain.mb_kobs [[List.replicate 2 ((1 : ℚ), (0 : ℚ))]] :=
  calc_fdiff_deterministic_layout mPlain [0, 0, 0, 0, 1, 1] [0, 0, 0, 0, 1, 1]
    [[List.replicate 2 ((1 : ℚ), (0 : ℚ))]] mPlain_wf rfl (by rfl)

end Ngmix
